import Mathlib

/-!
Verification development for the pig-pen tournament harness.

The definitions below are a shallow embedding of the Rust sources:
  * src/game.rs   — sandbox host (StoreData, WasmStrategy), turn and game engine
  * src/simulation.rs — tournament runner (run_simulation_sync)
  * src/api.rs    — request validation of the simulation-submission endpoint

Machine integers (u32/u64/usize) are modelled as Nat and i64 as Int; all
quantities involved stay far below the wrap-around points, and the one
unsigned subtraction of the source (the payout difference) is proved
in-range separately.  The sandboxed wasm component, the dice RNG and the
per-game seat shuffle are external inputs of the program and are modelled
as explicit oracle parameters.
-/

/-- StoreData from src/game.rs: the per-instance accounting record attached
to a sandbox store (wasi context and resource table carry no game-visible
state and are omitted). -/
structure StoreData where
  current_memory_bytes : Nat
  peak_memory_bytes : Nat
  memory_limit : Option Nat
  memory_limit_hit : Bool
deriving Repr, DecidableEq

/-- Boolean test for the per-instance limit check of memory_growing
(lines 60-65 of src/game.rs): the request exceeds the configured limit. -/
def limitExceededB (limit : Option Nat) (desired : Nat) : Bool :=
  match limit with
  | some l => decide (desired > l)
  | none => false

/-- Boolean test for the engine-maximum check of memory_growing
(lines 68-72 of src/game.rs). -/
def maximumExceededB (maximum : Option Nat) (desired : Nat) : Bool :=
  match maximum with
  | some m => decide (desired > m)
  | none => false

/-- StoreData::memory_growing from src/game.rs (ResourceLimiter impl),
returning the allow/deny answer together with the updated store data.
The early-return chain of the source is rendered as nested ifs. -/
def memory_growing (s : StoreData) (desired : Nat) (maximum : Option Nat) :
    Bool × StoreData :=
  let s1 : StoreData :=
    { s with
      current_memory_bytes := desired,
      peak_memory_bytes :=
        if desired > s.peak_memory_bytes then desired else s.peak_memory_bytes }
  if limitExceededB s.memory_limit desired then
    (false, { s1 with memory_limit_hit := true })
  else if maximumExceededB maximum desired then
    (false, s1)
  else
    (true, s1)

/-- Character-list version of the case-insensitive substring test used by the
fault classifier: does hay start with needle. -/
def leadsWith : List Char → List Char → Bool
  | [], _ => true
  | _ :: _, [] => false
  | a :: as, b :: bs => a == b && leadsWith as bs

/-- Does needle occur contiguously inside hay. -/
def hasSub (needle : List Char) : List Char → Bool
  | [] => needle.isEmpty
  | c :: t => leadsWith needle (c :: t) || hasSub needle t

/-- String containment, Rust str::contains. -/
def strContainsSub (hay needle : String) : Bool :=
  hasSub needle.data hay.data

/-- Lowercasing of an error message, Rust String::to_lowercase (the patterns
matched against are ASCII, for which per-char lowering coincides). -/
def lowerStr (s : String) : String :=
  String.mk (s.data.map Char.toLower)

/-- The resource-exhaustion pattern of WasmStrategy::should_roll
(lines 159-163 of src/game.rs): the lowercased message contains one of
"memory", "resource", "out of", "limit". -/
def resourceErrorPattern (msg : String) : Bool :=
  let m := lowerStr msg
  strContainsSub m "memory" || strContainsSub m "resource" ||
    strContainsSub m "out of" || strContainsSub m "limit"

/-- Outcome of one raw call into the sandboxed component: a clean boolean
or a trap/error carrying its message. -/
inductive CallOutcome where
  | ok (b : Bool)
  | err (msg : String)
deriving Repr, DecidableEq

namespace WasmStrategy

/-- WasmStrategy::should_roll from src/game.rs (lines 139-173).  The raw
sandbox call is the external input `call`; it may mutate the store data (the
resource limiter runs during the call), so it is a state transformer.
`Except.error` models the propagated anyhow error (the source additionally
wraps it with a context string, which we do not reproduce since only
propagation versus absorption is observable here). -/
def should_roll (call : StoreData → CallOutcome × StoreData) (s : StoreData) :
    Except String Bool × StoreData :=
  if s.memory_limit_hit then
    (Except.ok false, s)
  else
    match call s with
    | (CallOutcome.ok b, s') => (Except.ok b, s')
    | (CallOutcome.err e, s') =>
      if s'.memory_limit_hit then
        (Except.ok false, s')
      else if resourceErrorPattern e then
        (Except.ok false, { s' with memory_limit_hit := true })
      else
        (Except.error e, s')

/-- WasmStrategy::is_memory_limit_exceeded from src/game.rs. -/
def is_memory_limit_exceeded (s : StoreData) : Bool :=
  s.memory_limit_hit

end WasmStrategy

/-- PlayerState from src/game.rs. -/
structure PlayerState where
  score : Nat
  banked_score : Nat
  turn_start_score : Nat
  doubles_count : Nat
deriving Repr, DecidableEq

/-- DiceRoll type alias from src/game.rs (a pair of die values). -/
abbrev DiceRoll := Nat × Nat

/-- TurnHistoryEntry type alias from src/game.rs: (player_index, roll). -/
abbrev TurnHistoryEntry := Nat × DiceRoll

/-- GameState from the WIT bindings, as built in simulate_turn
(lines 198-205 of src/game.rs). -/
structure GameState where
  current_player_index : Nat
  current_banked_score : Nat
  current_total_score : Nat
  all_players_banked_scores : List Nat
  turn_history : List TurnHistoryEntry
deriving Repr, DecidableEq

/-- Observable outcome of one host-mediated should_roll call inside
simulate_turn, abstracting the sandboxed component together with the memory
limiter: `ok b` is a clean decision with no limiter latch, `memHit` is any
outcome after which memory_limit_hit is latched (the host or the post-call
check then forces the turn to end, regardless of any decision value), and
`fault e` is a non-memory error that the host propagates. -/
inductive StratResp where
  | ok (b : Bool)
  | memHit
  | fault (msg : String)
deriving Repr, DecidableEq

/-- The GameState value constructed at the top of simulate_turn's loop. -/
def mkGameState (playerIdx : Nat) (ps : PlayerState) (allBanked : List Nat)
    (history : List TurnHistoryEntry) : GameState :=
  ⟨playerIdx, ps.banked_score, ps.score, allBanked, history⟩

/-- State of simulate_turn's loop: the mutable player state, the must_roll
flag, the accumulated turn history, the cursor into the dice stream and the
strategy's memory_limit_hit flag. -/
structure TurnSt where
  ps : PlayerState
  mustRoll : Bool
  history : List TurnHistoryEntry
  diceIdx : Nat
  latched : Bool
deriving Repr, DecidableEq

/-- Result data of a completed simulate_turn call: final player state, turn
history, dice cursor, the strategy's latch flag and the returned
memory-exceeded boolean. -/
structure TurnOut where
  ps : PlayerState
  history : List TurnHistoryEntry
  diceIdx : Nat
  latched : Bool
  memExceeded : Bool
deriving Repr, DecidableEq

/-- One iteration of simulate_turn's loop either continues, ends the turn,
or propagates a strategy fault. -/
inductive TurnStep where
  | cont (st : TurnSt)
  | done (out : TurnOut)
  | fault (msg : String)
deriving Repr, DecidableEq

/-- The body of simulate_turn's loop (lines 196-275 of src/game.rs):
decision step, dice roll, resolution rules in source order, accumulation and
the 100-threshold checks. -/
def turnBody (strat : GameState → StratResp) (dice : Nat → DiceRoll)
    (allBanked : List Nat) (playerIdx : Nat) (st : TurnSt) : TurnStep :=
  let decision : Option TurnStep :=
    if st.mustRoll then none
    else
      let gs := mkGameState playerIdx st.ps allBanked st.history
      if st.latched then
        -- should_roll short-circuits to Ok(false); the subsequent
        -- is_memory_limit_exceeded check returns (score, true)
        some (TurnStep.done ⟨st.ps, st.history, st.diceIdx, st.latched, true⟩)
      else
        match strat gs with
        | StratResp.fault e => some (TurnStep.fault e)
        | StratResp.memHit =>
            some (TurnStep.done ⟨st.ps, st.history, st.diceIdx, true, true⟩)
        | StratResp.ok b =>
            if b then none
            else
              some (TurnStep.done
                ⟨{ st.ps with banked_score := st.ps.score },
                  st.history, st.diceIdx, st.latched, false⟩)
  match decision with
  | some step => step
  | none =>
    let roll := dice st.diceIdx
    let d1 := roll.1
    let d2 := roll.2
    let sum := d1 + d2
    let history' := st.history ++ [(playerIdx, roll)]
    let idx' := st.diceIdx + 1
    let ts := st.ps.turn_start_score
    if d1 = 1 ∧ d2 = 1 then
      TurnStep.done ⟨⟨0, 0, ts, 0⟩, history', idx', st.latched, false⟩
    else if sum = 7 then
      TurnStep.done
        ⟨⟨ts, st.ps.banked_score, ts, 0⟩, history', idx', st.latched, false⟩
    else
      let tripleDoubles := d1 = d2 ∧ st.ps.doubles_count + 1 ≥ 3
      if tripleDoubles then
        TurnStep.done ⟨⟨0, 0, ts, 0⟩, history', idx', st.latched, false⟩
      else
        let dc' := if d1 = d2 then st.ps.doubles_count + 1 else 0
        let mustRoll' := d1 = d2
        let score' := st.ps.score + sum
        if score' = 100 then
          TurnStep.done ⟨⟨0, 0, ts, 0⟩, history', idx', st.latched, false⟩
        else if score' > 100 then
          TurnStep.done ⟨⟨score', score', ts, dc'⟩, history', idx', st.latched, false⟩
        else
          TurnStep.cont
            ⟨⟨score', st.ps.banked_score, ts, dc'⟩, mustRoll', history', idx', st.latched⟩

/-- Fuel-indexed iteration of turnBody.  The source loop terminates for
genuine 1..6 dice; the fuel only truncates runs that would not. -/
def turnLoop (strat : GameState → StratResp) (dice : Nat → DiceRoll)
    (allBanked : List Nat) (playerIdx : Nat) :
    Nat → TurnSt → Option (Except String TurnOut)
  | 0, _ => none
  | fuel + 1, st =>
    match turnBody strat dice allBanked playerIdx st with
    | TurnStep.cont st' => turnLoop strat dice allBanked playerIdx fuel st'
    | TurnStep.done out => some (Except.ok out)
    | TurnStep.fault e => some (Except.error e)

/-- simulate_turn from src/game.rs: initialises turn_start_score,
doubles_count and must_roll, then runs the loop. -/
def simulate_turn (strat : GameState → StratResp) (dice : Nat → DiceRoll)
    (allBanked : List Nat) (playerIdx : Nat) (fuel : Nat) (ps : PlayerState)
    (history : List TurnHistoryEntry) (diceIdx : Nat) (latched : Bool) :
    Option (Except String TurnOut) :=
  turnLoop strat dice allBanked playerIdx fuel
    ⟨{ ps with turn_start_score := ps.score, doubles_count := 0 },
      true, history, diceIdx, latched⟩

/-- The endgame-detection condition of simulate_game (line 369 of
src/game.rs): the endgame has not started and the seat's score strictly
exceeds 100. -/
def endgameTrigger (endgameStarted : Bool) (score : Nat) : Bool :=
  !endgameStarted && decide (score > 100)

/-- The active (non-disqualified) seat list of simulate_game:
(0..num_players).filter(!disqualified[i]). -/
def activeSeats (n : Nat) (dq : List Bool) : List Nat :=
  (List.range n).filter (fun i => !(dq.getD i true))

/-- Rust Iterator::max_by_key over (seat, score) pairs keyed by score:
when several elements are equally maximal, the last one is returned. -/
def maxByKeyLast : List (Nat × Nat) → Option (Nat × Nat)
  | [] => none
  | p :: l =>
    match maxByKeyLast l with
    | none => some p
    | some q => if q.2 ≥ p.2 then some q else some p

/-- Winner selection of simulate_game (lines 399-415 of src/game.rs):
all-disqualified fallback 0, the sole active seat, or the maximal-score
active seat via max_by_key (with the dead unwrap_or(leader_index)). -/
def findWinner (n : Nat) (scores : List Nat) (dq : List Bool)
    (leaderIdx : Nat) : Nat :=
  let active := activeSeats n dq
  if active.isEmpty then 0
  else if active.length = 1 then active.headD 0
  else
    ((maxByKeyLast (active.map (fun i => (i, scores.getD i 0)))).map
      Prod.fst).getD leaderIdx

/-- The per-seat payment of simulate_game's payout loop (lines 437-442):
the score difference, doubled for a seat stuck at zero.  The subtraction is
u32 in the source; it is proved in-range for every charged seat. -/
def payment (winnerScore seatScore : Nat) : Int :=
  if seatScore = 0 then ((winnerScore - seatScore) * 2 : Nat)
  else ((winnerScore - seatScore : Nat) : Int)

/-- The winner's accumulated gain (lines 435-445 of src/game.rs): sum of the
payments of every other non-disqualified seat. -/
def winnerMoney (n : Nat) (scores : List Nat) (dq : List Bool) (w : Nat) : Int :=
  (List.range n).foldl
    (fun acc j =>
      if j ≠ w ∧ dq.getD j true = false then
        acc + payment (scores.getD w 0) (scores.getD j 0)
      else acc)
    0

/-- The money entry of seat i in simulate_game's results (lines 427-455). -/
def seatMoney (n : Nat) (scores : List Nat) (dq : List Bool) (w i : Nat) : Int :=
  if dq.getD i true then 0
  else if i = w then winnerMoney n scores dq w
  else -payment (scores.getD w 0) (scores.getD i 0)

/-- The wins entry of seat i in simulate_game's results (lines 421-424):
one for the winner unless it is disqualified. -/
def seatWins (dq : List Bool) (w i : Nat) : Nat :=
  if i = w ∧ dq.getD w true = false then 1 else 0

/-- The (wins, money) result rows of simulate_game (lines 417-455), given
the final scores, disqualification flags and leader index. -/
def gameResults (n : Nat) (scores : List Nat) (dq : List Bool)
    (leaderIdx : Nat) : List (Nat × Int) :=
  let w := findWinner n scores dq leaderIdx
  (List.range n).map (fun i => (seatWins dq w i, seatMoney n scores dq w i))

/-- State of simulate_game's main loop (src/game.rs lines 280-397). -/
structure GameSt where
  players : List PlayerState
  dq : List Bool
  latched : List Bool
  history : List TurnHistoryEntry
  curIdx : Nat
  leaderScore : Nat
  leaderIdx : Nat
  endgameStarted : Bool
  hadFinalTurn : List Bool
  diceIdx : Nat
deriving Repr, DecidableEq

/-- One iteration of simulate_game's loop either continues, breaks with the
exit state, propagates a strategy fault, or runs out of turn fuel. -/
inductive GameStep where
  | gcont (st : GameSt)
  | gdone (st : GameSt)
  | gfault (msg : String)
  | gstuck
deriving Repr, DecidableEq

/-- The body of simulate_game's main loop (lines 312-397 of src/game.rs):
skip disqualified seats, the pre-turn memory check with early exit, the
turn itself, the post-turn memory check with early exit, and the endgame
detection/progression logic. -/
def gameLoopBody (strats : Nat → GameState → StratResp) (dice : Nat → DiceRoll)
    (order : List Nat) (n : Nat) (turnFuel : Nat) (st : GameSt) : GameStep :=
  let cp := order.getD st.curIdx 0
  if st.dq.getD cp true then
    GameStep.gcont { st with curIdx := (st.curIdx + 1) % n }
  else if st.latched.getD cp false then
    let dq' := st.dq.set cp true
    let st1 := { st with dq := dq', curIdx := (st.curIdx + 1) % n }
    let active := activeSeats n dq'
    if active.length ≤ 1 then
      match active.head? with
      | some w =>
          GameStep.gdone
            { st1 with
                leaderIdx := w
                leaderScore := (st.players.getD w ⟨0, 0, 0, 0⟩).score }
      | none => GameStep.gdone st1
    else GameStep.gcont st1
  else
    let allBanked := st.players.map (fun p => p.banked_score)
    match simulate_turn (strats cp) dice allBanked cp turnFuel
        (st.players.getD cp ⟨0, 0, 0, 0⟩) st.history st.diceIdx
        (st.latched.getD cp false) with
    | none => GameStep.gstuck
    | some (Except.error e) => GameStep.gfault e
    | some (Except.ok out) =>
      let players' := st.players.set cp out.ps
      let st1 := { st with
        players := players'
        latched := st.latched.set cp out.latched
        history := out.history
        diceIdx := out.diceIdx }
      if out.memExceeded || out.latched then
        let dq' := st1.dq.set cp true
        let active := activeSeats n dq'
        if active.length ≤ 1 then
          match active.head? with
          | some w =>
              GameStep.gdone
                { st1 with
                    dq := dq'
                    leaderIdx := w
                    leaderScore := (players'.getD w ⟨0, 0, 0, 0⟩).score }
          | none => GameStep.gdone { st1 with dq := dq' }
        else
          GameStep.gcont { st1 with dq := dq', curIdx := (st.curIdx + 1) % n }
      else
        let sc := out.ps.score
        if endgameTrigger st1.endgameStarted sc then
          GameStep.gcont
            { st1 with
              endgameStarted := true
              leaderScore := sc
              leaderIdx := cp
              hadFinalTurn := (List.replicate n false).set cp true
              curIdx := (st.curIdx + 1) % n }
        else if st1.endgameStarted then
          let st2 :=
            if sc > st1.leaderScore then
              { st1 with
                leaderScore := sc
                leaderIdx := cp
                hadFinalTurn := (List.replicate n false).set cp true }
            else { st1 with hadFinalTurn := st1.hadFinalTurn.set cp true }
          let allHad := (List.range n).all
            (fun i => st2.dq.getD i true || st2.hadFinalTurn.getD i false)
          if allHad then GameStep.gdone st2
          else GameStep.gcont { st2 with curIdx := (st.curIdx + 1) % n }
        else
          GameStep.gcont { st1 with curIdx := (st.curIdx + 1) % n }

/-- Fuel-indexed iteration of gameLoopBody.  The source loop's termination
is probabilistic (it depends on the dice); insufficient fuel yields none. -/
def gameLoop (strats : Nat → GameState → StratResp) (dice : Nat → DiceRoll)
    (order : List Nat) (n : Nat) (turnFuel : Nat) :
    Nat → GameSt → Option (Except String GameSt)
  | 0, _ => none
  | fuel + 1, st =>
    match gameLoopBody strats dice order n turnFuel st with
    | GameStep.gcont st' => gameLoop strats dice order n turnFuel fuel st'
    | GameStep.gdone st' => some (Except.ok st')
    | GameStep.gfault e => some (Except.error e)
    | GameStep.gstuck => none

/-- The initial loop state of simulate_game: zeroed players, no
disqualifications, per-game-fresh history, the strategies' persistent latch
flags, and the current position in the dice stream. -/
def initGameSt (n : Nat) (latched : List Bool) (diceIdx : Nat) : GameSt :=
  ⟨List.replicate n ⟨0, 0, 0, 0⟩, List.replicate n false, latched, [], 0, 0,
    0, false, List.replicate n false, diceIdx⟩

/-- simulate_game from src/game.rs: run the main loop from the initial
state, then build the result rows from the exit state.  Returns the result
rows, the per-game disqualification flags, the strategies' latch flags and
the advanced dice cursor (peak-memory statistics are pass-through data not
modelled here). -/
def simulate_game (strats : Nat → GameState → StratResp)
    (dice : Nat → DiceRoll) (order : List Nat) (n : Nat)
    (turnFuel gameFuel : Nat) (latched : List Bool) (diceIdx : Nat) :
    Option (Except String (List (Nat × Int) × List Bool × List Bool × Nat)) :=
  match gameLoop strats dice order n turnFuel gameFuel
      (initGameSt n latched diceIdx) with
  | none => none
  | some (Except.error e) => some (Except.error e)
  | some (Except.ok st) =>
      some (Except.ok
        (gameResults n (st.players.map (fun p => p.score)) st.dq st.leaderIdx,
          st.dq, st.latched, st.diceIdx))

/-- State of run_simulation_sync's game loop (src/simulation.rs lines
212-259): aggregated (wins, money) per seat, the permanent
disqualification latches, the number of games actually simulated, and the
strategies' persistent store state threaded between games. -/
structure RunnerSt where
  stats : List (Nat × Int)
  permDq : List Bool
  gamesPlayed : Nat
  latched : List Bool
  diceIdx : Nat
deriving Repr, DecidableEq

/-- The game loop of run_simulation_sync (lines 220-259 of
src/simulation.rs): before each game the active count is checked for early
termination, then one game is simulated and its results folded into the
aggregates (progress writes to the database are external effects and not
modelled).  Recursion is over the number of games still to play. -/
def runSimLoop (strats : Nat → GameState → StratResp) (dice : Nat → DiceRoll)
    (orderOf : Nat → List Nat) (n : Nat) (turnFuel gameFuel : Nat) :
    Nat → RunnerSt → Option (Except String RunnerSt)
  | 0, st => some (Except.ok st)
  | rem + 1, st =>
    let activeCount := (st.permDq.filter (fun b => !b)).length
    if activeCount ≤ 1 then some (Except.ok st)
    else
      match simulate_game strats dice (orderOf st.gamesPlayed) n turnFuel
          gameFuel st.latched st.diceIdx with
      | none => none
      | some (Except.error e) => some (Except.error e)
      | some (Except.ok (results, dq, latched', diceIdx')) =>
        runSimLoop strats dice orderOf n turnFuel gameFuel rem
          ⟨List.zipWith (fun a b => (a.1 + b.1, a.2 + b.2)) st.stats results,
            List.zipWith (fun a b => a || b) st.permDq dq,
            st.gamesPlayed + 1, latched', diceIdx'⟩

/-- run_simulation_sync from src/simulation.rs: freshly instantiated
strategies (memory_limit_hit false) and zeroed aggregates, then the game
loop over num_games. -/
def run_simulation_sync (strats : Nat → GameState → StratResp)
    (dice : Nat → DiceRoll) (orderOf : Nat → List Nat) (n : Nat)
    (numGames turnFuel gameFuel : Nat) : Option (Except String RunnerSt) :=
  runSimLoop strats dice orderOf n turnFuel gameFuel numGames
    ⟨List.replicate n (0, 0), List.replicate n false, 0,
      List.replicate n false, 0⟩

/-- Validation prefix of start_simulation in src/api.rs (lines 196-203):
empty participant list or out-of-range num_games (an i32 in the source,
hence Int here) is rejected with HTTP 400 before anything else happens. -/
def start_simulation_validate (bot_ids : List String) (num_games : Int) :
    Except Nat Unit :=
  if bot_ids.isEmpty then Except.error 400
  else if num_games ≤ 0 || num_games > 1000000 then Except.error 400
  else Except.ok ()

/-- start_simulation in src/api.rs, to the extent visible to the core: the
validation runs first, and only on success are the simulation and
participant records created (modelled as the list of (bot_id, seat_index)
rows inserted into simulation_participants). -/
def start_simulation (bot_ids : List String) (num_games : Int) :
    Except Nat (List (String × Nat)) :=
  match start_simulation_validate bot_ids num_games with
  | Except.error c => Except.error c
  | Except.ok _ =>
      Except.ok (bot_ids.zip (List.range bot_ids.length))

/-- The quantity of the zero-sum invariant: the sum of the money entries of
all non-disqualified seats of a game's result rows. -/
def moneySum (results : List (Nat × Int)) (dq : List Bool) : Int :=
  ∑ i ∈ Finset.range results.length,
    if dq.getD i true then 0 else (results.getD i (0, 0)).2

/-- Concrete dice stream: two seats each roll nine (5,6) then (2,4),
bringing both to exactly 105. -/
def diceTie : Nat → DiceRoll := fun k =>
  if k < 9 then (5, 6)
  else if k = 9 then (2, 4)
  else if k < 19 then (5, 6)
  else (2, 4)

/-- Concrete strategy oracle: every seat always chooses to roll. -/
def stratAllRoll : Nat → GameState → StratResp := fun _ _ => StratResp.ok true

/-- Concrete dice stream for a two-game tournament: game one brings seat 0
to 105 and busts seat 1 with snake eyes; in game two seat 0 busts with
snake eyes and seat 1 rolls (2,3) before its strategy breaches the memory
limit. -/
def diceTourn : Nat → DiceRoll := fun k =>
  if k < 9 then (5, 6)
  else if k = 9 then (2, 4)
  else if k = 10 then (1, 1)
  else if k = 11 then (1, 1)
  else (2, 3)

/-- Concrete strategy oracle: seat 0 always rolls, seat 1 breaches the
memory limit at its first decision. -/
def stratTourn : Nat → GameState → StratResp := fun i _ =>
  if i = 0 then StratResp.ok true else StratResp.memHit

/-- Concrete dice stream for a one-game variant of the same scenario:
seat 0 busts with snake eyes, seat 1 rolls (2,3) and then breaches. -/
def diceMini : Nat → DiceRoll := fun k => if k = 0 then (1, 1) else (2, 3)

/-- Seat order oracle used by the concrete two-seat runs. -/
def orderTwo : Nat → List Nat := fun _ => [0, 1]

/-- Seat order oracle for the single-seat tournament. -/
def orderOne : Nat → List Nat := fun _ => [0]

/-- A raw sandbox call that traps with a resource-exhaustion message and
leaves the store unchanged. -/
def callMem : StoreData → CallOutcome × StoreData := fun s =>
  (CallOutcome.err "Out of memory: wasm grow failed", s)

/-!
Claim theorems.
-/

/-- C8: the simulation-submission endpoint rejects an empty bot_ids list
and any num_games outside [1, 1000000] with HTTP 400 and creates no
records, and otherwise (in particular at num_games = 1000000 exactly)
accepts the request and creates the participant records.  The source
condition `num_games <= 0` coincides with `num_games < 1` on i32. -/
theorem claim_C8 (bot_ids : List String) (num_games : Int) :
    start_simulation bot_ids num_games =
      if bot_ids = [] ∨ num_games < 1 ∨ num_games > 1000000 then
        Except.error 400
      else Except.ok (bot_ids.zip (List.range bot_ids.length)) := by
  unfold start_simulation start_simulation_validate
  rcases bot_ids with _ | ⟨b, bs⟩
  · simp
  · have hne : b :: bs ≠ [] := by simp
    by_cases h2 : num_games ≤ 0
    · have : num_games < 1 := by omega
      simp [h2, this]
    · have h2' : ¬num_games < 1 := by omega
      by_cases h3 : num_games > 1000000 <;> simp [h2, h2', h3]

/-- C5 (amended): on every grow request the limiter first records
current_memory_bytes := desired and raises peak_memory_bytes to the
maximum, then denies iff the request exceeds the per-instance limit or the
engine maximum; a denial caused by the per-instance limit latches
memory_limit_hit, while a denial caused only by the engine maximum leaves
memory_limit_hit unchanged. -/
theorem claim_C5_amended (s : StoreData) (desired : Nat) (maximum : Option Nat) :
    (memory_growing s desired maximum).2.current_memory_bytes = desired ∧
    (memory_growing s desired maximum).2.peak_memory_bytes =
      max s.peak_memory_bytes desired ∧
    (memory_growing s desired maximum).1 =
      !(limitExceededB s.memory_limit desired ||
        maximumExceededB maximum desired) ∧
    (memory_growing s desired maximum).2.memory_limit_hit =
      (s.memory_limit_hit || limitExceededB s.memory_limit desired) ∧
    (memory_growing s desired maximum).2.memory_limit = s.memory_limit := by
  unfold memory_growing
  have hpeak : (if desired > s.peak_memory_bytes then desired
      else s.peak_memory_bytes) = max s.peak_memory_bytes desired := by
    split <;> omega
  by_cases h1 : limitExceededB s.memory_limit desired <;>
    by_cases h2 : maximumExceededB maximum desired <;>
      simp [h1, h2, hpeak]

/-- C5 counterexample: a grow request of 50 bytes against a per-instance
limit of 100 but an engine maximum of 40 is denied, yet memory_limit_hit
stays false — refuting the claim that every denial sets
memory_limit_hit = true. -/
theorem claim_C5_counterexample :
    memory_growing ⟨0, 0, some 100, false⟩ 50 (some 40) =
      (false, ⟨50, 50, some 100, false⟩) ∧
    (memory_growing ⟨0, 0, some 100, false⟩ 50 (some 40)).2.memory_limit_hit =
      false :=
  ⟨rfl, rfl⟩

/-- C4: when a call into the sandboxed strategy fails and the latch was not
previously set, the host classifies the fault: a latched memory flag or a
resource-exhaustion message yields Hold (Ok false) with the latch set and
no error propagated; any other fault propagates as an error. -/
theorem claim_C4 (call : StoreData → CallOutcome × StoreData)
    (s s' : StoreData) (e : String)
    (h0 : s.memory_limit_hit = false)
    (hc : call s = (CallOutcome.err e, s')) :
    (s'.memory_limit_hit = true →
      WasmStrategy.should_roll call s = (Except.ok false, s')) ∧
    (s'.memory_limit_hit = false → resourceErrorPattern e = true →
      WasmStrategy.should_roll call s =
        (Except.ok false, { s' with memory_limit_hit := true })) ∧
    (s'.memory_limit_hit = false → resourceErrorPattern e = false →
      WasmStrategy.should_roll call s = (Except.error e, s')) := by
  unfold WasmStrategy.should_roll
  rw [hc, h0]
  refine ⟨fun h1 => by simp [h1], fun h1 h2 => by simp [h1, h2],
    fun h1 h2 => by simp [h1, h2]⟩

/-- Witness for C4: a trap whose message matches the resource pattern is
absorbed into Hold with the latch set. -/
theorem claim_C4_witness :
    WasmStrategy.should_roll callMem ⟨0, 0, some 100, false⟩ =
      (Except.ok false, ⟨0, 0, some 100, true⟩) :=
  (claim_C4 callMem ⟨0, 0, some 100, false⟩ ⟨0, 0, some 100, false⟩
    "Out of memory: wasm grow failed" rfl rfl).2.1 rfl (by decide)

/-- C10: once memory_limit_hit is set, should_roll returns Hold immediately
with the store untouched — independent of the sandbox call, which is never
invoked — so the flag is never cleared and every subsequent call behaves
the same way. -/
theorem claim_C10 (call : StoreData → CallOutcome × StoreData) (s : StoreData)
    (h : s.memory_limit_hit = true) :
    WasmStrategy.should_roll call s = (Except.ok false, s) ∧
    WasmStrategy.is_memory_limit_exceeded s = true := by
  unfold WasmStrategy.should_roll WasmStrategy.is_memory_limit_exceeded
  simp [h]

/-- Witness for C10 at a concrete latched store. -/
theorem claim_C10_witness :
    (⟨5, 5, some 100, true⟩ : StoreData).memory_limit_hit = true ∧
    WasmStrategy.should_roll callMem ⟨5, 5, some 100, true⟩ =
      (Except.ok false, ⟨5, 5, some 100, true⟩) :=
  ⟨rfl, (claim_C10 callMem ⟨5, 5, some 100, true⟩ rfl).1⟩

/-- C7: whenever the accumulation step brings the current player's score to
exactly 100 (the roll being none of snake eyes, a seven, or a third
double), the turn ends with score, banked_score and doubles_count all
reset to 0, and the endgame-detection condition of simulate_game — which
requires a score strictly greater than 100 — is false at the resulting
score. -/
theorem claim_C7 (strat : GameState → StratResp) (dice : Nat → DiceRoll)
    (allBanked : List Nat) (playerIdx : Nat) (st : TurnSt) (d1 d2 : Nat)
    (hroll : dice st.diceIdx = (d1, d2))
    (hdec : st.mustRoll = true ∨
      (st.latched = false ∧
        strat (mkGameState playerIdx st.ps allBanked st.history) =
          StratResp.ok true))
    (hsnake : ¬(d1 = 1 ∧ d2 = 1))
    (hseven : d1 + d2 ≠ 7)
    (htriple : ¬(d1 = d2 ∧ st.ps.doubles_count + 1 ≥ 3))
    (hexact : st.ps.score + (d1 + d2) = 100) :
    turnBody strat dice allBanked playerIdx st =
      TurnStep.done ⟨⟨0, 0, st.ps.turn_start_score, 0⟩,
        st.history ++ [(playerIdx, (d1, d2))], st.diceIdx + 1,
        st.latched, false⟩ ∧
    ∀ es : Bool, endgameTrigger es 0 = false := by
  constructor
  · unfold turnBody
    have hdecision :
        (if st.mustRoll then none
          else
            let gs := mkGameState playerIdx st.ps allBanked st.history
            if st.latched then
              some (TurnStep.done
                ⟨st.ps, st.history, st.diceIdx, st.latched, true⟩)
            else
              match strat gs with
              | StratResp.fault e => some (TurnStep.fault e)
              | StratResp.memHit =>
                  some (TurnStep.done
                    ⟨st.ps, st.history, st.diceIdx, true, true⟩)
              | StratResp.ok b =>
                  if b then none
                  else
                    some (TurnStep.done
                      ⟨{ st.ps with banked_score := st.ps.score },
                        st.history, st.diceIdx, st.latched, false⟩)) =
          (none : Option TurnStep) := by
      rcases hdec with h | ⟨hl, hs⟩
      · simp [h]
      · by_cases hm : st.mustRoll
        · simp [hm]
        · simp [hm, hl, hs]
    rw [hdecision]
    simp only [hroll, hsnake, hseven, htriple, hexact]
    simp
  · intro es
    unfold endgameTrigger
    simp

/-- Witness for C7: from score 95, rolling (2,3) lands exactly on 100 and
busts the turn to zero. -/
theorem claim_C7_witness :
    turnBody (fun _ => StratResp.ok true) (fun _ => (2, 3)) [] 0
        ⟨⟨95, 90, 95, 0⟩, true, [], 0, false⟩ =
      TurnStep.done ⟨⟨0, 0, 95, 0⟩, [(0, (2, 3))], 1, false, false⟩ ∧
    ∀ es : Bool, endgameTrigger es 0 = false :=
  claim_C7 (fun _ => StratResp.ok true) (fun _ => (2, 3)) [] 0
    ⟨⟨95, 90, 95, 0⟩, true, [], 0, false⟩ 2 3 rfl (Or.inl rfl)
    (by decide) (by decide) (by decide) rfl


/-!
Winner-selection lemmas.
-/

/-- Membership in the active seat list. -/
theorem mem_activeSeats (n : Nat) (dq : List Bool) (i : Nat) :
    i ∈ activeSeats n dq ↔ i < n ∧ dq.getD i true = false := by
  simp [activeSeats, List.mem_filter, List.mem_range]

/-- The active seat list is strictly increasing. -/
theorem activeSeats_pairwise (n : Nat) (dq : List Bool) :
    (activeSeats n dq).Pairwise (· < ·) :=
  (List.pairwise_lt_range n).filter _

/-- maxByKeyLast returns none exactly on the empty list. -/
theorem maxByKeyLast_eq_none_iff (l : List (Nat × Nat)) :
    maxByKeyLast l = none ↔ l = [] := by
  cases l with
  | nil => simp [maxByKeyLast]
  | cons p t =>
    simp only [maxByKeyLast, List.cons_ne_nil, iff_false]
    intro hcon
    cases h : maxByKeyLast t with
    | none => rw [h] at hcon; exact Option.noConfusion hcon
    | some q =>
      rw [h] at hcon
      change (if q.2 ≥ p.2 then some q else some p) = none at hcon
      by_cases hc : q.2 ≥ p.2 <;> simp [hc] at hcon

/-- Characterisation of maxByKeyLast on a list whose first components are
strictly increasing: the result is a member, its key is maximal, and among
equal keys its first component is the largest (Rust max_by_key keeps the
last maximum). -/
theorem maxByKeyLast_spec (l : List (Nat × Nat)) (p : Nat × Nat)
    (hpw : l.Pairwise (fun a b => a.1 < b.1)) (h : maxByKeyLast l = some p) :
    p ∈ l ∧ (∀ q ∈ l, q.2 ≤ p.2) ∧ ∀ q ∈ l, q.2 = p.2 → q.1 ≤ p.1 := by
  induction l generalizing p with
  | nil => simp [maxByKeyLast] at h
  | cons a t ih =>
    rw [List.pairwise_cons] at hpw
    obtain ⟨ha, hpt⟩ := hpw
    simp only [maxByKeyLast] at h
    cases ht : maxByKeyLast t with
    | none =>
      rw [ht] at h
      have htnil : t = [] := (maxByKeyLast_eq_none_iff t).1 ht
      subst htnil
      simp only [Option.some.injEq] at h
      subst h
      refine ⟨List.mem_cons_self a [], ?_, ?_⟩ <;> intro q hq <;>
        simp only [List.mem_cons, List.not_mem_nil, or_false] at hq <;>
        subst hq <;> simp
    | some q =>
      rw [ht] at h
      change (if q.2 ≥ a.2 then some q else some a) = some p at h
      obtain ⟨hqmem, hqmax, hqtie⟩ := ih q hpt ht
      by_cases hc : q.2 ≥ a.2
      · rw [if_pos hc] at h
        simp only [Option.some.injEq] at h
        subst h
        refine ⟨List.mem_cons_of_mem a hqmem, ?_, ?_⟩
        · intro x hx
          rcases List.mem_cons.1 hx with hx | hx
          · subst hx; exact hc
          · exact hqmax x hx
        · intro x hx hx2
          rcases List.mem_cons.1 hx with hx | hx
          · subst hx; exact Nat.le_of_lt (ha q hqmem)
          · exact hqtie x hx hx2
      · rw [if_neg hc] at h
        simp only [Option.some.injEq] at h
        subst h
        have hlt : q.2 < a.2 := Nat.lt_of_not_le hc
        refine ⟨List.mem_cons_self a t, ?_, ?_⟩
        · intro x hx
          rcases List.mem_cons.1 hx with hx | hx
          · subst hx; exact Nat.le_refl _
          · exact Nat.le_trans (hqmax x hx) (Nat.le_of_lt hlt)
        · intro x hx hx2
          rcases List.mem_cons.1 hx with hx | hx
          · subst hx; exact Nat.le_refl _
          · exact absurd hx2 (by
              have := hqmax x hx
              omega)

/-- Unfolding equation for findWinner without the let binder. -/
theorem findWinner_def (n : Nat) (scores : List Nat) (dq : List Bool)
    (ldr : Nat) :
    findWinner n scores dq ldr =
      if (activeSeats n dq).isEmpty then 0
      else if (activeSeats n dq).length = 1 then (activeSeats n dq).headD 0
      else
        ((maxByKeyLast ((activeSeats n dq).map
          (fun i => (i, scores.getD i 0)))).map Prod.fst).getD ldr := rfl

/-- Full specification of the winner selection: whenever any active seat
exists, the selected winner is active, has maximal score among active
seats, and among active seats of maximal score it has the largest index. -/
theorem findWinner_spec (n : Nat) (scores : List Nat) (dq : List Bool)
    (ldr : Nat) (h : activeSeats n dq ≠ []) :
    findWinner n scores dq ldr ∈ activeSeats n dq ∧
    (∀ j ∈ activeSeats n dq,
      scores.getD j 0 ≤ scores.getD (findWinner n scores dq ldr) 0) ∧
    ∀ j ∈ activeSeats n dq,
      scores.getD j 0 = scores.getD (findWinner n scores dq ldr) 0 →
        j ≤ findWinner n scores dq ldr := by
  have hne : (activeSeats n dq).isEmpty = false := by
    rw [Bool.eq_false_iff]
    intro hcon
    exact h (List.isEmpty_iff.1 hcon)
  rw [findWinner_def, hne]
  simp only [Bool.false_eq_true, if_false]
  by_cases hlen : (activeSeats n dq).length = 1
  · rw [if_pos hlen]
    obtain ⟨a, hA⟩ := List.length_eq_one.1 hlen
    rw [hA]
    simp only [List.headD_cons]
    refine ⟨List.mem_cons_self a [], ?_, ?_⟩
    · intro j hj
      simp only [List.mem_cons, List.not_mem_nil, or_false] at hj
      subst hj
      exact Nat.le_refl _
    · intro j hj _
      simp only [List.mem_cons, List.not_mem_nil, or_false] at hj
      subst hj
      exact Nat.le_refl _
  · rw [if_neg hlen]
    have hmapne : (activeSeats n dq).map (fun i => (i, scores.getD i 0)) ≠ [] := by
      intro hcon
      exact h (List.map_eq_nil_iff.1 hcon)
    obtain ⟨p, hp⟩ : ∃ p, maxByKeyLast ((activeSeats n dq).map
        (fun i => (i, scores.getD i 0))) = some p := by
      cases hm : maxByKeyLast ((activeSeats n dq).map
          (fun i => (i, scores.getD i 0))) with
      | none => exact absurd ((maxByKeyLast_eq_none_iff _).1 hm) hmapne
      | some p => exact ⟨p, rfl⟩
    have hpw : ((activeSeats n dq).map
        (fun i => (i, scores.getD i 0))).Pairwise (fun a b => a.1 < b.1) := by
      rw [List.pairwise_map]
      exact activeSeats_pairwise n dq
    obtain ⟨hpmem, hpmax, hptie⟩ := maxByKeyLast_spec _ p hpw hp
    obtain ⟨i, hiA, hip⟩ := List.mem_map.1 hpmem
    rw [hp]
    simp only [Option.map_some', Option.getD_some]
    have hp1 : p.1 = i := by rw [← hip]
    have hp2 : p.2 = scores.getD i 0 := by rw [← hip]
    refine ⟨by rw [hp1]; exact hiA, ?_, ?_⟩
    · intro j hj
      have hb : scores.getD j 0 ≤ p.2 :=
        hpmax _ (List.mem_map_of_mem (fun i => (i, scores.getD i 0)) hj)
      rw [hp2] at hb
      rw [hp1]
      exact hb
    · intro j hj hj2
      have ht : scores.getD j 0 = p.2 → j ≤ p.1 :=
        hptie _ (List.mem_map_of_mem (fun i => (i, scores.getD i 0)) hj)
      rw [hp1] at ht hj2 ⊢
      apply ht
      rw [hp2]
      exact hj2

/-- C1 counterexample: a reachable two-seat game (both seats always roll;
seat 0 reaches 105 and starts the endgame, seat 1 then ties at exactly 105)
ends with leader seat 0, yet the winner computed by simulate_game's
selection is seat 1 — the last seat to strictly exceed the prior leader
does not win, and a tie is broken toward the later seat rather than the
first seat to cross 100. -/
theorem claim_C1_counterexample :
    (gameLoop stratAllRoll diceTie [0, 1] 2 100 50
        (initGameSt 2 [false, false] 0)).map
      (Except.map (fun st =>
        (st.players.map (fun p => p.score), st.dq, st.leaderIdx,
          findWinner 2 (st.players.map (fun p => p.score)) st.dq
            st.leaderIdx))) =
      some (Except.ok ([105, 105], [false, false], 0, 1)) ∧
    (1 : Nat) ≠ 0 :=
  ⟨rfl, by decide⟩

/-- C1 (amended): at game end the winner is an active seat of maximal
final score, and among active seats sharing the maximal score the one with
the largest seat index is selected (Rust max_by_key keeps the last
maximum); the endgame leader therefore wins only when no later-indexed
active seat matches its score. -/
theorem claim_C1_amended (n : Nat) (scores : List Nat) (dq : List Bool)
    (ldr : Nat) (h : activeSeats n dq ≠ []) :
    findWinner n scores dq ldr ∈ activeSeats n dq ∧
    (∀ j ∈ activeSeats n dq,
      scores.getD j 0 ≤ scores.getD (findWinner n scores dq ldr) 0) ∧
    ∀ j ∈ activeSeats n dq,
      scores.getD j 0 = scores.getD (findWinner n scores dq ldr) 0 →
        j ≤ findWinner n scores dq ldr :=
  findWinner_spec n scores dq ldr h

/-- Witness for the amended C1 at the tied final state of the
counterexample game. -/
theorem claim_C1_amended_witness :
    activeSeats 2 [false, false] ≠ [] ∧
    findWinner 2 [105, 105] [false, false] 0 ∈ activeSeats 2 [false, false] :=
  ⟨by decide, (claim_C1_amended 2 [105, 105] [false, false] 0 (by decide)).1⟩

/-- C9: the u32 subtraction winner_score - players[j].score of the payout
loop never underflows: every non-disqualified seat j other than the winner
has a score at most the winner's, because the winner is selected as the
maximal-score active seat (and when only one active seat remains, no other
active seat exists to be charged). -/
theorem claim_C9 (n : Nat) (scores : List Nat) (dq : List Bool)
    (ldr j : Nat) (hj : j < n) (hdq : dq.getD j true = false)
    (_hjw : j ≠ findWinner n scores dq ldr) :
    scores.getD j 0 ≤ scores.getD (findWinner n scores dq ldr) 0 := by
  have hjA : j ∈ activeSeats n dq := (mem_activeSeats n dq j).2 ⟨hj, hdq⟩
  have hA : activeSeats n dq ≠ [] := by
    intro hcon
    rw [hcon] at hjA
    exact List.not_mem_nil j hjA
  exact (findWinner_spec n scores dq ldr hA).2.1 j hjA

/-- Witness for C9: in the tied 105-105 game, the charged seat 0 has score
at most the winner's. -/
theorem claim_C9_witness :
    (0 : Nat) < 2 ∧ [false, false].getD 0 true = false ∧
    0 ≠ findWinner 2 [105, 105] [false, false] 0 ∧
    [105, 105].getD 0 0 ≤
      [105, 105].getD (findWinner 2 [105, 105] [false, false] 0) 0 :=
  ⟨by decide, rfl, by decide,
    claim_C9 2 [105, 105] [false, false] 0 0 (by decide) rfl (by decide)⟩


/-!
Payout lemmas.
-/

/-- getD on a mapped range hits the mapped value below the bound. -/
theorem getD_map_range {α : Type} (f : Nat → α) (n i : Nat) (d : α)
    (h : i < n) : ((List.range n).map f).getD i d = f i := by
  rw [List.getD_eq_getElem?_getD, List.getElem?_map, List.getElem?_range h]
  rfl

/-- List sum over a range as a Finset sum. -/
theorem sum_map_range (f : Nat → Int) :
    ∀ n : Nat, ((List.range n).map f).sum = ∑ i ∈ Finset.range n, f i := by
  intro n
  induction n with
  | zero => simp
  | succ m ih =>
    rw [List.range_succ, List.map_append, List.sum_append,
      Finset.sum_range_succ, ih]
    simp

/-- The guarded foldl of the payout loop, with its accumulator
generalised, equals the accumulator plus the sum of the guarded terms. -/
theorem foldl_guard_add (g : Nat → Int) (P : Nat → Prop) [DecidablePred P] :
    ∀ (l : List Nat) (acc : Int),
      l.foldl (fun a j => if P j then a + g j else a) acc =
        acc + (l.map (fun j => if P j then g j else 0)).sum := by
  intro l
  induction l with
  | nil => simp
  | cons x t ih =>
    intro acc
    simp only [List.foldl_cons, List.map_cons, List.sum_cons]
    by_cases h : P x
    · rw [if_pos h, if_pos h, ih]
      ring
    · rw [if_neg h, if_neg h, ih]
      ring

/-- The winner's accumulated gain as a Finset sum. -/
theorem winnerMoney_eq (n : Nat) (scores : List Nat) (dq : List Bool)
    (w : Nat) :
    winnerMoney n scores dq w =
      ∑ j ∈ Finset.range n,
        if j ≠ w ∧ dq.getD j true = false then
          payment (scores.getD w 0) (scores.getD j 0)
        else 0 := by
  unfold winnerMoney
  rw [foldl_guard_add
    (fun j => payment (scores.getD w 0) (scores.getD j 0))
    (fun j => j ≠ w ∧ dq.getD j true = false), zero_add,
    sum_map_range]

/-- Unfolding equation for gameResults without the let binder. -/
theorem gameResults_def (n : Nat) (scores : List Nat) (dq : List Bool)
    (ldr : Nat) :
    gameResults n scores dq ldr =
      (List.range n).map (fun i =>
        (seatWins dq (findWinner n scores dq ldr) i,
          seatMoney n scores dq (findWinner n scores dq ldr) i)) := rfl

/-- The result rows of a game have one row per seat. -/
theorem gameResults_length (n : Nat) (scores : List Nat) (dq : List Bool)
    (ldr : Nat) : (gameResults n scores dq ldr).length = n := by
  rw [gameResults_def, List.length_map, List.length_range]

/-- The zero-sum identity for the payout computation: summing the money
entries of all non-disqualified seats of any game's result rows gives 0. -/
theorem moneySum_gameResults (n : Nat) (scores : List Nat) (dq : List Bool)
    (ldr : Nat) : moneySum (gameResults n scores dq ldr) dq = 0 := by
  unfold moneySum
  rw [gameResults_length]
  have hterm : ∀ i ∈ Finset.range n,
      (if dq.getD i true then (0 : Int)
        else ((gameResults n scores dq ldr).getD i (0, 0)).2) =
        seatMoney n scores dq (findWinner n scores dq ldr) i := by
    intro i hi
    rw [Finset.mem_range] at hi
    rw [gameResults_def, getD_map_range _ n i _ hi]
    by_cases hdq : dq.getD i true = true
    · rw [if_pos hdq]
      unfold seatMoney
      rw [if_pos hdq]
    · rw [if_neg hdq]
  rw [Finset.sum_congr rfl hterm]
  by_cases hA : activeSeats n dq = []
  · apply Finset.sum_eq_zero
    intro i hi
    rw [Finset.mem_range] at hi
    have hdq : dq.getD i true = true := by
      by_contra hcon
      have hmem : i ∈ activeSeats n dq :=
        (mem_activeSeats n dq i).2 ⟨hi, Bool.eq_false_iff.2 hcon⟩
      rw [hA] at hmem
      exact List.not_mem_nil i hmem
    unfold seatMoney
    rw [if_pos hdq]
  · have hwmem : findWinner n scores dq ldr ∈ activeSeats n dq :=
      (findWinner_spec n scores dq ldr hA).1
    obtain ⟨hwlt, hwdq⟩ := (mem_activeSeats n dq _).1 hwmem
    have hwdq' : ¬dq.getD (findWinner n scores dq ldr) true = true := by
      rw [hwdq]
      exact Bool.false_ne_true
    have hwrange : findWinner n scores dq ldr ∈ Finset.range n :=
      Finset.mem_range.2 hwlt
    rw [← Finset.add_sum_erase _ _ hwrange]
    have hmw : seatMoney n scores dq (findWinner n scores dq ldr)
        (findWinner n scores dq ldr) =
        winnerMoney n scores dq (findWinner n scores dq ldr) := by
      unfold seatMoney
      rw [if_neg hwdq', if_pos rfl]
    have hwm : winnerMoney n scores dq (findWinner n scores dq ldr) =
        ∑ j ∈ (Finset.range n).erase (findWinner n scores dq ldr),
          if dq.getD j true then 0
          else payment (scores.getD (findWinner n scores dq ldr) 0)
            (scores.getD j 0) := by
      rw [winnerMoney_eq, ← Finset.add_sum_erase _ _ hwrange]
      have h0 : (if findWinner n scores dq ldr ≠ findWinner n scores dq ldr ∧
          dq.getD (findWinner n scores dq ldr) true = false then
            payment (scores.getD (findWinner n scores dq ldr) 0)
              (scores.getD (findWinner n scores dq ldr) 0)
          else 0) = 0 := by
        rw [if_neg]
        intro hc
        exact hc.1 rfl
      rw [h0, zero_add]
      apply Finset.sum_congr rfl
      intro j hj
      have hjw : j ≠ findWinner n scores dq ldr := (Finset.mem_erase.1 hj).1
      by_cases hdq : dq.getD j true = true
      · have hno : ¬(j ≠ findWinner n scores dq ldr ∧
            dq.getD j true = false) := by
          intro hc
          rw [hdq] at hc
          exact Bool.noConfusion hc.2
        rw [if_neg hno, if_pos hdq]
      · have hdq' : dq.getD j true = false := Bool.eq_false_iff.2 hdq
        rw [if_pos ⟨hjw, hdq'⟩, if_neg hdq]
    have hterm2 : ∀ j ∈ (Finset.range n).erase (findWinner n scores dq ldr),
        seatMoney n scores dq (findWinner n scores dq ldr) j =
          -(if dq.getD j true then 0
            else payment (scores.getD (findWinner n scores dq ldr) 0)
              (scores.getD j 0)) := by
      intro j hj
      have hjw : j ≠ findWinner n scores dq ldr := (Finset.mem_erase.1 hj).1
      unfold seatMoney
      by_cases hdq : dq.getD j true = true
      · rw [if_pos hdq, if_pos hdq, neg_zero]
      · rw [if_neg hdq, if_neg hdq, if_neg hjw]
    rw [Finset.sum_congr rfl hterm2, Finset.sum_neg_distrib, hmw, hwm]
    ring

/-- C3: every completed game's result rows are zero-sum over the
non-disqualified seats — the winner's gain equals the sum of the losers'
payments. -/
theorem claim_C3 (strats : Nat → GameState → StratResp)
    (dice : Nat → DiceRoll) (order : List Nat) (n : Nat)
    (turnFuel gameFuel : Nat) (latched : List Bool) (diceIdx : Nat)
    (results : List (Nat × Int)) (dq latchedOut : List Bool) (diceIdx' : Nat)
    (h : simulate_game strats dice order n turnFuel gameFuel latched diceIdx =
      some (Except.ok (results, dq, latchedOut, diceIdx'))) :
    moneySum results dq = 0 := by
  unfold simulate_game at h
  cases hg : gameLoop strats dice order n turnFuel gameFuel
      (initGameSt n latched diceIdx) with
  | none => rw [hg] at h; exact Option.noConfusion h
  | some r =>
    rw [hg] at h
    cases r with
    | error e => simp only [Option.some.injEq] at h; exact Except.noConfusion h
    | ok st =>
      simp only [Option.some.injEq, Except.ok.injEq, Prod.mk.injEq] at h
      obtain ⟨h1, h2, -, -⟩ := h
      subst h1
      subst h2
      apply moneySum_gameResults

/-- Witness for C3 on a concrete completed game (seat 0 busts with snake
eyes and wins after seat 1 is disqualified). -/
theorem claim_C3_witness : moneySum [(1, 0), (0, 0)] [false, true] = 0 :=
  claim_C3 stratTourn diceMini [0, 1] 2 100 50 [false, false] 0
    [(1, 0), (0, 0)] [false, true] [false, true] 2 rfl

/-- A seat marked disqualified in a game's flags gets a zero result row. -/
theorem gameResults_dq_zero (n : Nat) (scores : List Nat) (dq : List Bool)
    (ldr i : Nat) (h : dq.getD i true = true) :
    (gameResults n scores dq ldr).getD i (0, 0) = (0, 0) := by
  by_cases hi : i < n
  · rw [gameResults_def, getD_map_range _ n i _ hi]
    have hw : seatWins dq (findWinner n scores dq ldr) i = 0 := by
      unfold seatWins
      rw [if_neg]
      intro hc
      have hfalse := hc.2
      rw [← hc.1, h] at hfalse
      exact Bool.noConfusion hfalse
    have hm : seatMoney n scores dq (findWinner n scores dq ldr) i = 0 := by
      unfold seatMoney
      rw [if_pos h]
    show (seatWins dq (findWinner n scores dq ldr) i,
      seatMoney n scores dq (findWinner n scores dq ldr) i) = (0, 0)
    rw [hw, hm]
  · have hlen : (gameResults n scores dq ldr).length ≤ i := by
      rw [gameResults_length]
      omega
    rw [List.getD_eq_getElem?_getD, List.getElem?_eq_none hlen]
    rfl

/-- C2 (amended): in every game's returned results, a seat whose
disqualified flag is set receives zero wins and zero money for that game;
the tournament aggregate of a permanently disqualified seat, however, keeps
whatever wins and money it accumulated in games completed before the
disqualification (see the counterexample). -/
theorem claim_C2_amended (strats : Nat → GameState → StratResp)
    (dice : Nat → DiceRoll) (order : List Nat) (n : Nat)
    (turnFuel gameFuel : Nat) (latched : List Bool) (diceIdx : Nat)
    (results : List (Nat × Int)) (dq latchedOut : List Bool) (diceIdx' : Nat)
    (i : Nat)
    (h : simulate_game strats dice order n turnFuel gameFuel latched diceIdx =
      some (Except.ok (results, dq, latchedOut, diceIdx')))
    (hdq : dq.getD i true = true) :
    results.getD i (0, 0) = (0, 0) := by
  unfold simulate_game at h
  cases hg : gameLoop strats dice order n turnFuel gameFuel
      (initGameSt n latched diceIdx) with
  | none => rw [hg] at h; exact Option.noConfusion h
  | some r =>
    rw [hg] at h
    cases r with
    | error e => simp only [Option.some.injEq] at h; exact Except.noConfusion h
    | ok st =>
      simp only [Option.some.injEq, Except.ok.injEq, Prod.mk.injEq] at h
      obtain ⟨h1, h2, -, -⟩ := h
      subst h1
      subst h2
      apply gameResults_dq_zero
      exact hdq

/-- Witness for the amended C2: the disqualified seat 1 of a concrete game
gets the zero row. -/
theorem claim_C2_amended_witness :
    [false, true].getD 1 true = true ∧
    [((1 : Nat), (0 : Int)), (0, 0)].getD 1 (0, 0) = (0, 0) :=
  ⟨rfl, claim_C2_amended stratTourn diceMini [0, 1] 2 100 50 [false, false] 0
    [(1, 0), (0, 0)] [false, true] [false, true] 2 1 rfl rfl⟩

/-- C2 counterexample: a two-seat, two-game tournament in which seat 1
loses 210 in game one and is disqualified in game two ends with seat 1
permanently disqualified yet carrying net_money -210 ≠ 0 in the
aggregated results — refuting the claim that a disqualified seat's
aggregates are zero. -/
theorem claim_C2_counterexample :
    run_simulation_sync stratTourn diceTourn orderTwo 2 2 100 50 =
      some (Except.ok
        ⟨[(2, 210), (0, -210)], [false, true], 2, [false, true], 13⟩) ∧
    [false, true].getD 1 true = true ∧
    ([((2 : Nat), (210 : Int)), (0, -210)].getD 1 (0, 0)).2 ≠ 0 :=
  ⟨rfl, rfl, by decide⟩

/-- C6 (amended): a tournament with exactly one participating seat stops
before simulating any game: the early-termination check (active count at
most one) fires ahead of the first game, so zero games run and all
aggregates stay at their initial zeros. -/
theorem claim_C6_amended (strats : Nat → GameState → StratResp)
    (dice : Nat → DiceRoll) (orderOf : Nat → List Nat)
    (numGames turnFuel gameFuel : Nat) :
    run_simulation_sync strats dice orderOf 1 numGames turnFuel gameFuel =
      some (Except.ok ⟨[(0, 0)], [false], 0, [false], 0⟩) := by
  unfold run_simulation_sync
  cases numGames with
  | zero => rfl
  | succ r => rfl

/-- C6 counterexample: a concrete single-seat tournament request simulates
zero games, refuting the claim that the runner runs a game that ends on
the seat's first turn crossing 100. -/
theorem claim_C6_counterexample :
    ¬∃ st : RunnerSt,
      run_simulation_sync stratAllRoll diceTie orderOne 1 1 10 10 =
        some (Except.ok st) ∧ 1 ≤ st.gamesPlayed := by
  rintro ⟨st, h1, h2⟩
  have he : run_simulation_sync stratAllRoll diceTie orderOne 1 1 10 10 =
      some (Except.ok (⟨[(0, 0)], [false], 0, [false], 0⟩ : RunnerSt)) := rfl
  rw [he] at h1
  simp only [Option.some.injEq, Except.ok.injEq] at h1
  subst h1
  exact absurd h2 (by decide)
